import Mathlib

/-!
Shallow embedding of the bulk data-ingestion pipeline
(src/unnamed/part_000 and src/challenge-1/challenge.ts) together with
theorems settling the specification claims about it.

Naming of inferred types follows the source
(`type InferredType = 'int' | 'bigint' | 'float' | 'date' | 'string'`);
the specification calls these int32, int64, float64, timestamp, string
respectively.
-/

namespace Ingest

/-- The source's `InferredType` union:
`'int' | 'bigint' | 'float' | 'date' | 'string'`
(spec names: int32, int64, float64, timestamp, string). -/
inductive InferredType where
  | int
  | bigint
  | float
  | date
  | string
deriving DecidableEq, Repr

/-- Model of the regular expression `/^\d+$/` on the character list of the
tested string: one or more digits and nothing else.  `digitsTail` is the
`\d*` part. -/
def digitsTail : List Char → Bool
  | [] => true
  | c :: cs => c.isDigit && digitsTail cs

/-- Model of `/^\d+$/.test s` (s given as its character list). -/
def digitsP : List Char → Bool
  | [] => false
  | c :: cs => c.isDigit && digitsTail cs

/-- Scanner for the part of `/^\d+\.\d+$/` after the first character:
more digits, then a literal dot, then one or more digits.  Since `\d`
cannot match a dot, the dot of the pattern necessarily matches the first
dot of the string, so after it the remainder must be all digits. -/
def floatScan : List Char → Bool
  | [] => false
  | c :: cs => if c = '.' then digitsP cs else c.isDigit && floatScan cs

/-- Model of `/^\d+\.\d+$/.test s` (s given as its character list). -/
def floatP : List Char → Bool
  | [] => false
  | c :: cs => c.isDigit && floatScan cs

/-- Numeric value of a digit string (most significant first).  Models
`parseInt(value, 10)` on a string already known to match `/^\d+$/`; the
result is exact for the 32-bit boundary comparison the source makes. -/
def digitsVal (cs : List Char) : Nat :=
  cs.foldl (fun a c => a * 10 + (c.toNat - 48)) 0

/-- Gregorian leap-year test, as in ECMAScript date arithmetic. -/
def isLeapYear (y : Nat) : Bool :=
  (y % 4 == 0 && y % 100 != 0) || y % 400 == 0

/-- Number of days in month `m` (1-12) of year `y`. -/
def daysInMonth (y m : Nat) : Nat :=
  if m == 2 then (if isLeapYear y then 29 else 28)
  else if m == 4 || m == 6 || m == 9 || m == 11 then 30
  else 31

/-- Days elapsed from 1970-01-01 to the civil date y-m-d (proleptic
Gregorian, y given with four digits so y ≥ 0), the standard era-based
civil-calendar computation used to model `Date.UTC`. -/
def daysFromCivil (y m d : Nat) : Int :=
  let yAdj := if m ≤ 2 then y - 1 else y
  let era := yAdj / 400
  let yoe := yAdj % 400
  let mp := (m + 9) % 12
  let doy := (153 * mp + 2) / 5 + d - 1
  let doe := yoe * 365 + yoe / 4 - yoe / 100 + doy
  (era * 146097 + doe : Int) - 719468

/-- Model of ECMAScript `Date.parse` restricted to the date-only form of
the Date Time String Format, `YYYY-MM-DD`, the only form the pipeline's
data exercises; such a string is interpreted as a UTC date and the result
is its epoch-millisecond value.  `none` models `NaN` (unparseable input,
including every string not of this ten-character shape). -/
def jsDateParse (s : String) : Option Int :=
  match s.toList with
  | [y1, y2, y3, y4, s1, m1, m2, s2, d1, d2] =>
    if s1 = '-' ∧ s2 = '-' ∧
        (y1.isDigit ∧ y2.isDigit ∧ y3.isDigit ∧ y4.isDigit) ∧
        (m1.isDigit ∧ m2.isDigit) ∧ (d1.isDigit ∧ d2.isDigit) then
      let y := digitsVal [y1, y2, y3, y4]
      let m := digitsVal [m1, m2]
      let d := digitsVal [d1, d2]
      if 1 ≤ m ∧ m ≤ 12 ∧ 1 ≤ d ∧ d ≤ daysInMonth y m then
        some (daysFromCivil y m d * 86400000)
      else none
    else none
  | _ => none

/-- JavaScript truthiness of a `Date.parse` result: `NaN` (modelled as
`none`) and `0` are falsy, every other number is truthy.  This models the
source's `if (Date.parse(value))`. -/
def jsTruthy : Option Int → Bool
  | none => false
  | some v => v != 0

/-- Model of the source's `inferType` (src/unnamed/part_000 lines 88-99,
src/challenge-1/challenge.ts lines 77-88): all-digit strings are `int`
when `parseInt` of them lies in the signed 32-bit range and `bigint`
otherwise; `digits.digits` strings are `float`; strings whose
`Date.parse` is truthy are `date`; everything else is `string`. -/
def inferType (value : String) : InferredType :=
  if digitsP value.toList then
    let intValue : Int := digitsVal value.toList
    if -2147483648 ≤ intValue ∧ intValue ≤ 2147483647 then
      InferredType.int
    else
      InferredType.bigint
  else if floatP value.toList then InferredType.float
  else if jsTruthy (jsDateParse value) then InferredType.date
  else InferredType.string

/-- A parsed CSV data row as fast-csv delivers it with `headers: true`: a
JavaScript object, modelled as an association list from column name to the
raw string value.  Key order is the header order of the file. -/
abbrev Row := List (String × String)

/-- JavaScript property access `row[header]`: the first binding of the
key, `none` modelling `undefined` when the key is absent. -/
def rowGet (row : Row) (h : String) : Option String :=
  (row.find? (fun kv => kv.1 == h)).map (fun kv => kv.2)

/-- One insertion into a JavaScript `Set`, which keeps insertion order
and ignores an element already present. -/
def jsSetInsert {α : Type} [DecidableEq α] (l : List α) (x : α) : List α :=
  if x ∈ l then l else l ++ [x]

/-- The element list of `new Set(xs)` in iteration order: each element of
`xs` inserted in turn, first occurrences surviving in order. -/
def jsSetOfList {α : Type} [DecidableEq α] (xs : List α) : List α :=
  xs.foldl jsSetInsert []

/-- Errors of the embedded pipeline.  The source defines no error classes
of its own: `assertionError` models a Node `assert` failure,
`typeError` models a thrown JavaScript `TypeError`,
`tableAlreadyExists` models the knex/SQLite error raised by
`createTable` on an existing table, `loadError` models a failed batch
insert, and `wrapped e` models the entry point's
rethrow `throw Error(...)` around an inner error `e`.
`emptySourceError` is the typed error the specification prescribes for an
empty sample; the source never constructs it. -/
inductive JsError where
  | assertionError (msg : String)
  | typeError (msg : String)
  | emptySourceError (file : String)
  | tableAlreadyExists (table : String)
  | loadError
  | wrapped (inner : JsError)
deriving DecidableEq, Repr

/-- Model of `inferColumnTypes` (src/unnamed/part_000 lines 107-131,
src/challenge-1/challenge.ts lines 91-115).  `rows` are the parsed data
rows of the file at `filePath` in order; the sample is the first
`sampleSize` of them, 10 by default in the source (the `data` handler pushes a row only while
`sampleRows.length < sampleSize`).  On an empty sample the source
evaluates `Object.keys(sampleRows[0])` with `sampleRows[0] = undefined`,
which throws a `TypeError` — not the specification's
`EmptySourceError`.  Otherwise the headers are the keys of the first
sampled row, and each column's type is `Array.from(new Set(values.map
inferType))[0]`: the head of the insertion-ordered deduplicated
classification list.  The head exists because the sample is non-empty;
`Option.getD` with the `string` default is unreachable there. -/
def inferColumnTypes (filePath : String) (rows : List Row)
    (sampleSize : Nat) : Except JsError (List (String × InferredType)) :=
  let sampleRows := rows.take sampleSize
  match sampleRows with
  | [] => Except.error (JsError.typeError
      "Cannot convert undefined or null to object")
  | first :: _ =>
    let headers := first.map Prod.fst
    Except.ok (headers.map (fun header =>
      let sampleValues := sampleRows.map
        (fun r => (rowGet r header).getD "undefined")
      let types := jsSetOfList (sampleValues.map inferType)
      (header, types.head?.getD InferredType.string)))

/-- A destination table: the column types it was created with (the
synthetic auto-increment `id` primary key is implicit) and its rows. -/
structure Table where
  schema : List (String × InferredType)
  rows : List Row
deriving DecidableEq, Repr

/-- The SQLite database: an association list from table name to table. -/
abbrev Db := List (String × Table)

/-- Model of `checkTableExistence` / `db.schema.hasTable`. -/
def tableExists (db : Db) (name : String) : Bool :=
  db.any (fun t => t.1 == name)

/-- Model of `countRowsInTable`: `select count(*)` of the table, 0 when
the table is absent. -/
def countRowsInTable (db : Db) (name : String) : Nat :=
  ((db.find? (fun t => t.1 == name)).map (fun t => t.2.rows.length)).getD 0

/-- Model of `countRowsInCSV`: the number of data rows of a parsed file. -/
def countRowsInCSV (rows : List Row) : Nat := rows.length

/-- Append `new` to the rows of table `name` (the effect of a successful
`batchInsert`); the first entry of that name is updated. -/
def insertRows : Db → String → List Row → Db
  | [], name, new => [(name, ⟨[], new⟩)]
  | (n, t) :: rest, name, new =>
    if n == name then (n, ⟨t.schema, t.rows ++ new⟩) :: rest
    else (n, t) :: insertRows rest name new

/-- Model of `setupDatabase` (src/unnamed/part_000 lines 139-172):
`createTable` adds a fresh table with the inferred columns (plus the
implicit `id` key) and fails with the knex table-already-exists error when
a table of that name is present. -/
def setupDatabase (db : Db) (inferredTypes : List (String × InferredType))
    (tableName : String) : Except JsError Db :=
  if tableExists db tableName then
    Except.error (JsError.tableAlreadyExists tableName)
  else
    Except.ok (db ++ [(tableName, ⟨inferredTypes, []⟩)])

/-- The batching loop of `processCSV`: each streamed row is pushed onto
the buffer, and whenever the buffer reaches `batchSize` the source does
`rows.splice(0, batchSize)` and issues that slice as one batch insert; at
end of file a non-empty remainder is issued as a final partial batch.
The result is the list of batch-insert payloads in issue order. -/
def batchLoop (batchSize : Nat) : List Row → List Row → List (List Row)
  | [], buf => if buf.length != 0 then [buf] else []
  | r :: rs, buf =>
    let buf2 := buf ++ [r]
    if batchSize ≤ buf2.length then
      buf2.take batchSize :: batchLoop batchSize rs (buf2.drop batchSize)
    else
      batchLoop batchSize rs buf2

/-- The batch inserts `processCSV` issues for a file with data rows
`rows`, starting from the empty buffer. -/
def batches (batchSize : Nat) (rows : List Row) : List (List Row) :=
  batchLoop batchSize rows []

/-- Run the batch inserts of one transaction in order.  `failAt` is the
failure oracle: `some k` means the k-th batch insert (0-based) rejects,
modelling any knex/SQLite insert failure; `none` means every insert
succeeds.  The result is the database state as seen inside the
transaction, or the load error. -/
def applyBatches (db : Db) (tableName : String) :
    List (List Row) → Option Nat → Except JsError Db
  | [], _ => Except.ok db
  | b :: bs, failAt =>
    match failAt with
    | some 0 => Except.error JsError.loadError
    | some (k + 1) => applyBatches (insertRows db tableName b) tableName bs (some k)
    | none => applyBatches (insertRows db tableName b) tableName bs none

/-- Settled-outcome model of `processCSV` (src/unnamed/part_000 lines
181-206, src/challenge-1/challenge.ts lines 160-203) for the schedules in
which a failing batch insert settles the transaction promise by
`reject` before the `end` handler's `resolve` runs.  In the challenge-1
version this is every schedule: the stream is paused during each
mid-file insert, so `end` fires only after all prior inserts have
settled, and the final remainder insert is awaited before `resolve()`.
Under that ordering knex rolls the transaction back on any insert
failure (database unchanged) and commits all batches on success; the
surrounding `try/catch` logs the error and returns normally either way,
so `processCSV` never propagates a load failure and its only observable
outcome is the database state.  `failAt` is the failure oracle by issued
batch index; the batch size 10 is part_000's constant (challenge-1 uses
90 with the identical batching structure).  The part_000 version is NOT
paused and admits a second schedule — `resolve` at `end` while inserts
are still pending — modelled separately by `txStep` / `runTx` /
`txFinal` below, under which a late insert failure can leave a partial
commit. -/
def processCSV (db : Db) (rows : List Row) (tableName : String)
    (failAt : Option Nat) : Db :=
  match applyBatches db tableName (batches 10 rows) failAt with
  | Except.ok db2 => db2
  | Except.error _ => db

/-- The extracted dump contents: the parsed data rows of the two CSV
files the pipeline ingests.  The Fetcher and Extractor are external
collaborators, modelled as having already produced these files. -/
structure Env where
  customersCsv : List Row
  organizationsCsv : List Row
deriving DecidableEq, Repr

/-- Model of `checkAndVerifyTables` (src/unnamed/part_000 lines
265-288).  When both destination tables exist, the source compares each
table's row count with the corresponding CSV row count through
`assert(dbCount !== csvCount, msg)`: the assertion THROWS exactly when
its condition is false, i.e. when the two counts are EQUAL, and passes
when they differ — the inequality is inverted with respect to the
assertion's own message.  So with both tables present the function
returns `true` (skip) precisely when both row counts differ from their
CSVs, and raises an `AssertionError` precisely when a count matches its
CSV.  When either table is missing it returns `false` (proceed). -/
def checkAndVerifyTables (db : Db) (env : Env) : Except JsError Bool :=
  let doesCustomersTableExist := tableExists db "customers"
  let doesOrganizationsTableExist := tableExists db "organizations"
  if doesCustomersTableExist && doesOrganizationsTableExist then
    let dbCustomerCount := countRowsInTable db "customers"
    let csvCustomerCount := countRowsInCSV env.customersCsv
    let dbOrganizationCount := countRowsInTable db "organizations"
    let csvOrganizationCount := countRowsInCSV env.organizationsCsv
    if dbCustomerCount ≠ csvCustomerCount then
      if dbOrganizationCount ≠ csvOrganizationCount then
        Except.ok true
      else
        Except.error (JsError.assertionError
          "organization count in db != organization count in csv")
    else
      Except.error (JsError.assertionError
        "customer count in db != customer count in csv")
  else
    Except.ok false

/-- The stages of `processDataDump` (src/unnamed/part_000 lines 291-332)
after type inference: the guard check (early return on skip), then the
two `setupDatabase` DDL calls, then the two loads.  Each of these stages
is awaited in the entry point's `try`, so a rejection here reaches its
`catch`.  `failCustomers` and `failOrganizations` are the batch-insert
failure oracles of the two loads; the loads themselves cannot produce an
error because `processCSV` swallows its own. -/
def pipelineAfterInference (db : Db) (env : Env)
    (customerInferredTypes organizationInferredTypes :
      List (String × InferredType))
    (failCustomers failOrganizations : Option Nat) : Except JsError Db :=
  match checkAndVerifyTables db env with
  | Except.error e => Except.error e
  | Except.ok true => Except.ok db
  | Except.ok false =>
  match setupDatabase db customerInferredTypes "customers" with
  | Except.error e => Except.error e
  | Except.ok db1 =>
  match setupDatabase db1 organizationInferredTypes "organizations" with
  | Except.error e => Except.error e
  | Except.ok db2 =>
    let db3 := processCSV db2 env.customersCsv "customers" failCustomers
    let db4 := processCSV db3 env.organizationsCsv "organizations" failOrganizations
    Except.ok db4

/-- Model of the entry point `processDataDump` after the external
download and extraction steps, which are modelled as having succeeded
with contents `env`.  The two `inferColumnTypes` calls run first
(`Promise.all`): an empty source makes the `TypeError` fire inside the
stream's `end` listener, OUTSIDE the promise executor, so the inference
promise never settles and the exception is uncaught — it aborts the run
WITHOUT ever reaching the entry point's `try/catch`, and is surfaced
unwrapped.  Errors of the later stages reject promises the entry point
awaits, reach its `catch`, and are rethrown as
`Error("An error occurred: " + err)`, modelled by wrapping the inner
error. -/
def processDataDump (db : Db) (env : Env)
    (failCustomers failOrganizations : Option Nat) : Except JsError Db :=
  match inferColumnTypes "./tmp/extracted/dump/customers.csv" env.customersCsv 10 with
  | Except.error e => Except.error e
  | Except.ok customerInferredTypes =>
  match inferColumnTypes "./tmp/extracted/dump/organizations.csv" env.organizationsCsv 10 with
  | Except.error e => Except.error e
  | Except.ok organizationInferredTypes =>
  match pipelineAfterInference db env customerInferredTypes
      organizationInferredTypes failCustomers failOrganizations with
  | Except.ok db2 => Except.ok db2
  | Except.error e => Except.error (JsError.wrapped e)

/-- Events of the event-driven load: a `data` callback delivering the
next parsed row, completion of an in-flight batch insert (the `await`
returning, after which the handler continues), and the stream's `end`
event. -/
inductive StreamEvent where
  | data
  | insertDone
  | endOfFile
deriving DecidableEq, Repr

/-- State of the event-driven load inside `processCSV`'s transaction:
rows the parser has not yet delivered, the `rows` buffer array, whether
the stream is paused, the batch inserts currently in flight (payloads in
issue order), the batch inserts that have completed, and whether `end`
has fired. -/
structure LoadState where
  pending : List Row
  buffer : List Row
  paused : Bool
  inflight : List (List Row)
  inserted : List (List Row)
  ended : Bool
deriving DecidableEq, Repr

/-- The initial state of a load of `rows`. -/
def initLoad (rows : List Row) : LoadState :=
  { pending := rows, buffer := [], paused := false,
    inflight := [], inserted := [], ended := false }

/-- One event of the challenge-1 `processCSV` stream machine
(src/challenge-1/challenge.ts lines 177-195).  A `data` event can fire
only while the stream is neither paused nor ended; the handler pushes the
row and, when the buffer reaches `batchSize`, calls `stream.pause()`,
splices the batch out and starts its insert.  The insert completing is
the handler's `await` returning, after which it calls `stream.resume()`.
The `end` handler issues any non-empty remainder as a final insert. -/
def stepPause (batchSize : Nat) (s : LoadState) : StreamEvent → LoadState
  | StreamEvent.data =>
    if s.paused || s.ended then s else
    match s.pending with
    | [] => s
    | r :: rest =>
      let buf := s.buffer ++ [r]
      if batchSize ≤ buf.length then
        { s with pending := rest, buffer := buf.drop batchSize,
                 paused := true, inflight := s.inflight ++ [buf.take batchSize] }
      else
        { s with pending := rest, buffer := buf }
  | StreamEvent.insertDone =>
    match s.inflight with
    | [] => s
    | b :: bs =>
      { s with inflight := bs, inserted := s.inserted ++ [b], paused := false }
  | StreamEvent.endOfFile =>
    if s.paused || s.ended then s else
    match s.pending with
    | _ :: _ => s
    | [] =>
      if s.buffer.length != 0 then
        { s with ended := true, buffer := [], inflight := s.inflight ++ [s.buffer] }
      else
        { s with ended := true }

/-- One event of the part_000 `processCSV` stream machine
(src/unnamed/part_000 lines 189-199).  Identical to the challenge-1
machine except that the handler never pauses or resumes the stream: a
`data` event can fire whenever the stream has not ended, even while a
batch insert is in flight, and several inserts can be in flight at
once. -/
def stepNoPause (batchSize : Nat) (s : LoadState) : StreamEvent → LoadState
  | StreamEvent.data =>
    if s.ended then s else
    match s.pending with
    | [] => s
    | r :: rest =>
      let buf := s.buffer ++ [r]
      if batchSize ≤ buf.length then
        { s with pending := rest, buffer := buf.drop batchSize,
                 inflight := s.inflight ++ [buf.take batchSize] }
      else
        { s with pending := rest, buffer := buf }
  | StreamEvent.insertDone =>
    match s.inflight with
    | [] => s
    | b :: bs =>
      { s with inflight := bs, inserted := s.inserted ++ [b] }
  | StreamEvent.endOfFile =>
    if s.ended then s else
    match s.pending with
    | _ :: _ => s
    | [] =>
      if s.buffer.length != 0 then
        { s with ended := true, buffer := [], inflight := s.inflight ++ [s.buffer] }
      else
        { s with ended := true }

/-- Invariant of the challenge-1 load machine: the buffer stays strictly
below the batch size, at most one insert is in flight, and an in-flight
insert implies the stream is paused (or already ended, for the final
flush, after which no data event can fire either). -/
def LoadInv (batchSize : Nat) (s : LoadState) : Prop :=
  s.buffer.length < batchSize ∧ s.inflight.length ≤ 1 ∧
    (s.inflight ≠ [] → s.paused = true ∨ s.ended = true)

/-- Run the challenge-1 machine over a schedule of events. -/
def runPause (batchSize : Nat) (s : LoadState) (es : List StreamEvent) : LoadState :=
  es.foldl (stepPause batchSize) s

/-- Run the part_000 machine over a schedule of events. -/
def runNoPause (batchSize : Nat) (s : LoadState) (es : List StreamEvent) : LoadState :=
  es.foldl (stepNoPause batchSize) s

/-- A batch insert issued inside the load transaction: its issue index
(the outcome oracle is consulted at this index when it settles), its row
payload, and whether it is the `end` handler's final remainder insert,
whose await-continuation is `resolve()`. -/
structure TxInsert where
  idx : Nat
  payload : List Row
  isFinal : Bool
deriving DecidableEq, Repr

/-- State of one `processCSV` transaction run, refining the stream
machine with the promise-settlement race of the source: rows not yet
delivered, the `rows` buffer, the pause flag, whether `end` has fired,
the number of inserts issued, the inserts issued but not yet settled (in
issue order), the payloads of inserts that succeeded inside the open
transaction, and the executor promise's settlement flags (`resolve` /
`reject`, first settlement wins). -/
structure TxLoadState where
  pending : List Row
  buffer : List Row
  paused : Bool
  ended : Bool
  issued : Nat
  inflight : List TxInsert
  applied : List (List Row)
  resolved : Bool
  rejected : Bool
deriving DecidableEq, Repr

/-- The initial transaction state for a load of `rows`. -/
def initTx (rows : List Row) : TxLoadState :=
  { pending := rows, buffer := [], paused := false, ended := false,
    issued := 0, inflight := [], applied := [], resolved := false,
    rejected := false }

/-- JavaScript `resolve()`: settles the executor's promise with success
unless it has already settled. -/
def txResolve (s : TxLoadState) : TxLoadState :=
  if s.resolved || s.rejected then s else { s with resolved := true }

/-- JavaScript `reject(err)`: settles the executor's promise with failure
unless it has already settled. -/
def txReject (s : TxLoadState) : TxLoadState :=
  if s.resolved || s.rejected then s else { s with rejected := true }

/-- Events of the transactional load: a `data` callback, the stream's
`end` event, and the settlement of the oldest in-flight insert (the
SQLite connection serializes queries, so inserts settle in issue
order). -/
inductive TxEvent where
  | data
  | endOfFile
  | settle
deriving DecidableEq, Repr

/-- One event of the `processCSV` load transaction.  `pauses` selects
the challenge-1 variant (`stream.pause()` before each mid-file batch
insert, `stream.resume()` as the await's continuation) against the
part_000 variant (no pause/resume).  A `data` event fires only while the
stream is flowing: the handler pushes the row and, on a full buffer,
splices the batch out and issues its insert.  The `end` event fires once
the parser has delivered every row and the stream is flowing: a
non-empty remainder is issued as the final insert — `resolve()` runs as
that insert's await-continuation — while an empty remainder resolves at
once, even though earlier inserts may still be pending in the unpaused
variant.  A `settle` event completes the oldest in-flight insert with
the outcome `outcomes` gives its index: on failure `.catch(reject)`
rejects the promise first; in either case the awaiting handler's
continuation then runs — `stream.resume()` for a mid-file insert of the
pausing variant, `resolve()` for the final insert. -/
def txStep (pauses : Bool) (batchSize : Nat) (outcomes : Nat → Bool)
    (s : TxLoadState) : TxEvent → TxLoadState
  | TxEvent.data =>
    if s.paused || s.ended then s else
    match s.pending with
    | [] => s
    | r :: rest =>
      let buf := s.buffer ++ [r]
      if batchSize ≤ buf.length then
        { s with pending := rest, buffer := buf.drop batchSize,
                 paused := pauses,
                 inflight := s.inflight ++
                   [⟨s.issued, buf.take batchSize, false⟩],
                 issued := s.issued + 1 }
      else
        { s with pending := rest, buffer := buf }
  | TxEvent.endOfFile =>
    if s.paused || s.ended then s else
    match s.pending with
    | _ :: _ => s
    | [] =>
      if s.buffer.length != 0 then
        { s with ended := true, buffer := [],
                 inflight := s.inflight ++ [⟨s.issued, s.buffer, true⟩],
                 issued := s.issued + 1 }
      else
        txResolve { s with ended := true }
  | TxEvent.settle =>
    match s.inflight with
    | [] => s
    | ins :: rest =>
      let s1 := { s with inflight := rest }
      let s2 := if outcomes ins.idx then
          { s1 with applied := s1.applied ++ [ins.payload] }
        else txReject s1
      if ins.isFinal then txResolve s2
      else if pauses then { s2 with paused := false } else s2

/-- Run the transaction machine over a schedule of events. -/
def runTx (pauses : Bool) (batchSize : Nat) (outcomes : Nat → Bool)
    (s : TxLoadState) (es : List TxEvent) : TxLoadState :=
  es.foldl (fun t e => txStep pauses batchSize outcomes t e) s

/-- knex's finalization of `db.transaction` once the callback's promise
has settled and the connection queue has drained: a rejected promise
rolls back (database unchanged), a resolved promise COMMITs the batches
whose INSERTs succeeded.  An unsettled transaction has no committed
effect. -/
def txFinal (db : Db) (tableName : String) (s : TxLoadState) : Db :=
  if s.rejected then db
  else if s.resolved then
    s.applied.foldl (fun d b => insertRows d tableName b) db
  else db

/-- Invariant of the pausing (challenge-1) transaction machine: at most
one insert in flight; a mid-file insert in flight implies the stream is
paused; the final insert exists only after `end`; after `end` the file
is fully parsed and the buffer flushed; a resolved promise means the
load is complete with nothing in flight; and, as long as no reject has
fired, every source row sits in exactly one of applied batches, in-flight
payloads, the buffer, or the unparsed remainder. -/
def TxInv (rows0 : List Row) (s : TxLoadState) : Prop :=
  s.inflight.length ≤ 1
  ∧ (∀ ins ∈ s.inflight, ins.isFinal = false → s.paused = true)
  ∧ (∀ ins ∈ s.inflight, ins.isFinal = true → s.ended = true)
  ∧ (s.ended = true → s.pending = [] ∧ s.buffer = [])
  ∧ (s.resolved = true → s.pending = [] ∧ s.buffer = [] ∧ s.inflight = [])
  ∧ (s.rejected = false →
      s.applied.flatten ++ (s.inflight.map TxInsert.payload).flatten
        ++ s.buffer ++ s.pending = rows0)

theorem isDigit_ne_dot {c : Char} (h : c.isDigit = true) : c ≠ '.' := by
  intro hEq
  rw [hEq] at h
  exact absurd h (by decide)

/-- C7: the per-value classifier maps the specification's boundary inputs
as stated: the largest signed-32-bit digit string to `int` (spec: int32),
the next integer to `bigint` (int64), a digits-dot-digits literal to
`float` (float64), an ISO calendar date to `date` (timestamp), and a
non-numeric, non-date token to `string`. -/
theorem inferType_boundary_values :
    inferType "2147483647" = InferredType.int
    ∧ inferType "2147483648" = InferredType.bigint
    ∧ inferType "3.14" = InferredType.float
    ∧ inferType "2024-01-01" = InferredType.date
    ∧ inferType "abc123" = InferredType.string := by
  decide

/-- C10: every string whose calendar-date parse yields the epoch instant
(millisecond value 0) is classified `string`, not `date`, because the
source guards the date branch with the truthiness of `Date.parse`'s
numeric result and 0 is falsy. -/
theorem inferType_epoch_is_string (s : String) (h : jsDateParse s = some 0) :
    inferType s = InferredType.string := by
  have h0 := h
  unfold jsDateParse at h
  split at h
  case h_2 => exact absurd h (by simp)
  case h_1 y1 y2 y3 y4 s1 m1 m2 s2 d1 d2 heq =>
    split at h
    case isFalse => exact absurd h (by simp)
    case isTrue hcond =>
      obtain ⟨hs1, hs2, ⟨hy1, hy2, hy3, hy4⟩, ⟨hm1, hm2⟩, hd1, hd2⟩ := hcond
      subst hs1
      subst hs2
      have hdF : digitsP s.toList = false := by
        rw [heq]
        simp [digitsP, digitsTail, (by decide : ('-' : Char).isDigit = false)]
      have hfF : floatP s.toList = false := by
        rw [heq]
        simp [floatP, floatScan, isDigit_ne_dot hy2, isDigit_ne_dot hy3,
          isDigit_ne_dot hy4, (by decide : ¬(('-' : Char) = '.')),
          (by decide : ('-' : Char).isDigit = false)]
      have hdF2 : digitsP s.data = false := hdF
      have hfF2 : floatP s.data = false := hfF
      simp [inferType, hdF, hfF, hdF2, hfF2, h0, jsTruthy]

/-- C10 witness: `"1970-01-01"` parses to the epoch instant and is
classified `string`. -/
theorem inferType_epoch_is_string_witness :
    jsDateParse "1970-01-01" = some 0
    ∧ inferType "1970-01-01" = InferredType.string :=
  ⟨by decide, inferType_epoch_is_string "1970-01-01" (by decide)⟩

/-- C5 counterexample: on a file with a header row but zero data rows the
source does not fail with the specification's `EmptySourceError` naming
the file; it throws the generic `TypeError` arising from
`Object.keys(sampleRows[0])` with an undefined first sample row. -/
theorem inferColumnTypes_empty_not_emptySourceError :
    inferColumnTypes "./tmp/extracted/dump/customers.csv" [] 10
      = Except.error (JsError.typeError
          "Cannot convert undefined or null to object")
    ∧ JsError.typeError "Cannot convert undefined or null to object"
        ≠ JsError.emptySourceError "./tmp/extracted/dump/customers.csv" := by
  constructor
  · rfl
  · decide

/-- C5 amended: for every file path and sample size, a file with zero
data rows makes `inferColumnTypes` fail, but with the generic
`TypeError` of `Object.keys(undefined)` rather than a typed
`EmptySourceError` naming the file. -/
theorem inferColumnTypes_empty_typeError (filePath : String) (sampleSize : Nat) :
    inferColumnTypes filePath [] sampleSize
      = Except.error (JsError.typeError
          "Cannot convert undefined or null to object") := by
  simp [inferColumnTypes]

theorem jsSetInsert_ne_nil {α : Type} [DecidableEq α] (l : List α) (x : α) :
    jsSetInsert l x ≠ [] := by
  unfold jsSetInsert
  split
  case isTrue hmem =>
    intro hnil
    rw [hnil] at hmem
    exact absurd hmem (List.not_mem_nil x)
  case isFalse => simp

theorem head?_jsSetInsert {α : Type} [DecidableEq α] (l : List α) (x : α)
    (hl : l ≠ []) : (jsSetInsert l x).head? = l.head? := by
  cases l with
  | nil => exact absurd rfl hl
  | cons a t =>
    unfold jsSetInsert
    split
    case isTrue => rfl
    case isFalse => simp

theorem head?_foldl_jsSetInsert {α : Type} [DecidableEq α] (xs : List α) :
    ∀ acc : List α, acc ≠ [] →
      (xs.foldl jsSetInsert acc).head? = acc.head? := by
  induction xs with
  | nil => intro acc hacc; rfl
  | cons y ys ih =>
    intro acc hacc
    rw [List.foldl_cons, ih (jsSetInsert acc y) (jsSetInsert_ne_nil acc y),
      head?_jsSetInsert acc y hacc]

/-- The first element of a JavaScript `Set` in iteration order is the
first element inserted: deduplication keeps first occurrences. -/
theorem jsSetOfList_head {α : Type} [DecidableEq α] (x : α) (xs : List α) :
    (jsSetOfList (x :: xs)).head? = some x := by
  unfold jsSetOfList
  rw [List.foldl_cons]
  rw [head?_foldl_jsSetInsert xs (jsSetInsert [] x) (jsSetInsert_ne_nil [] x)]
  rfl

/-- On a non-empty sample, `inferColumnTypes` returns, for each header of
the first sampled row, the classification of that row's value for the
header. -/
theorem inferColumnTypes_first (filePath : String) (first : Row)
    (rest : List Row) (sampleSize : Nat) (hs : 0 < sampleSize) :
    inferColumnTypes filePath (first :: rest) sampleSize =
      Except.ok ((first.map Prod.fst).map (fun h =>
        (h, inferType ((rowGet first h).getD "undefined")))) := by
  obtain ⟨k, rfl⟩ : ∃ k, sampleSize = k + 1 := ⟨sampleSize - 1, by omega⟩
  unfold inferColumnTypes
  simp only [List.take_succ_cons, List.map_cons, jsSetOfList_head,
    Option.getD_some]

/-- C6: for every column and every non-empty sample, the inferred type is
the head, in insertion order, of the deduplicated per-value
classification list — which is the classification of the first sampled
value — and `inferColumnTypes` accordingly maps every header to the
classification of the first sampled row's value, not to any majority
vote. -/
theorem column_type_is_first_value_classification (filePath : String)
    (first : Row) (rest : List Row) (sampleSize : Nat) (hs : 0 < sampleSize) :
    (∀ header,
      (jsSetOfList ((((first :: rest).take sampleSize).map
          (fun r => (rowGet r header).getD "undefined")).map inferType)).head?
        = some (inferType ((rowGet first header).getD "undefined")))
    ∧ inferColumnTypes filePath (first :: rest) sampleSize =
        Except.ok ((first.map Prod.fst).map (fun h =>
          (h, inferType ((rowGet first h).getD "undefined")))) := by
  constructor
  · intro header
    obtain ⟨k, rfl⟩ : ∃ k, sampleSize = k + 1 := ⟨sampleSize - 1, by omega⟩
    simp only [List.take_succ_cons, List.map_cons, jsSetOfList_head]
  · exact inferColumnTypes_first filePath first rest sampleSize hs

/-- C6 witness: a two-row sample whose second row would change a majority
vote still infers each column from its first value: column `a` is `int`
from `"1"` (second value `"foo"` ignored) and column `b` is `string`
from `"x"` (second value `"2.5"` ignored). -/
theorem column_type_is_first_value_classification_witness :
    inferColumnTypes "./tmp/extracted/dump/customers.csv"
        [[("a", "1"), ("b", "x")], [("a", "foo"), ("b", "2.5")]] 10
      = Except.ok [("a", InferredType.int), ("b", InferredType.string)] :=
  ((column_type_is_first_value_classification
      "./tmp/extracted/dump/customers.csv" [("a", "1"), ("b", "x")]
      [[("a", "foo"), ("b", "2.5")]] 10 (by decide)).2).trans (by rfl)

/-- C1: evaluation of the Idempotency Guard at the failing input.  With
both tables present and every destination row count EQUAL to its source
count (customers 1 = 1, organizations 1 = 1) — the already-ingested state
the claim says must be skipped — the guard raises an `AssertionError`
instead; and with both counts DIFFERENT (0 against 1) — the inconsistent
state the claim says must fail — it returns `skip = true`.  The
`assert(dbCount !== csvCount)` comparison is inverted with respect to the
claim, the specification's intent, and the assertion's own message. -/
theorem checkAndVerifyTables_inverted :
    checkAndVerifyTables
        [("customers", ⟨[("a", InferredType.int)], [[("a", "1")]]⟩),
         ("organizations", ⟨[("a", InferredType.int)], [[("a", "2")]]⟩)]
        ⟨[[("a", "1")]], [[("a", "2")]]⟩
      = Except.error (JsError.assertionError
          "customer count in db != customer count in csv")
    ∧ checkAndVerifyTables
        [("customers", ⟨[("a", InferredType.int)], []⟩),
         ("organizations", ⟨[("a", InferredType.int)], []⟩)]
        ⟨[[("a", "1")]], [[("a", "2")]]⟩
      = Except.ok true := ⟨rfl, rfl⟩

/-- C3: evaluation of the whole pipeline at the failing input.  A first
run against a fresh database succeeds and loads both datasets fully; the
second run against the identical input does NOT skip them — the guard's
inverted assertion fires on the equal row counts and the run is aborted
with a wrapped `AssertionError` (so the row counts stay unchanged only
because the rerun fails before writing, not because the dataset is
skipped). -/
theorem second_run_not_skipped :
    processDataDump [] ⟨[[("a", "1")]], [[("a", "2")]]⟩ none none
      = Except.ok
          [("customers", ⟨[("a", InferredType.int)], [[("a", "1")]]⟩),
           ("organizations", ⟨[("a", InferredType.int)], [[("a", "2")]]⟩)]
    ∧ processDataDump
          [("customers", ⟨[("a", InferredType.int)], [[("a", "1")]]⟩),
           ("organizations", ⟨[("a", InferredType.int)], [[("a", "2")]]⟩)]
          ⟨[[("a", "1")]], [[("a", "2")]]⟩ none none
      = Except.error (JsError.wrapped (JsError.assertionError
          "customer count in db != customer count in csv")) := ⟨rfl, rfl⟩

theorem applyBatches_fail (t : String) :
    ∀ (bs : List (List Row)) (k : Nat) (db : Db), k < bs.length →
      applyBatches db t bs (some k) = Except.error JsError.loadError := by
  intro bs
  induction bs with
  | nil => intro k db hk; exact absurd hk (by simp)
  | cons b bs ih =>
    intro k db hk
    cases k with
    | zero => rfl
    | succ k =>
      show applyBatches (insertRows db t b) t bs (some k) = _
      exact ih k (insertRows db t b) (by simpa using hk)

theorem applyBatches_none (t : String) :
    ∀ (bs : List (List Row)) (db : Db),
      applyBatches db t bs none
        = Except.ok (bs.foldl (fun d b => insertRows d t b) db) := by
  intro bs
  induction bs with
  | nil => intro db; rfl
  | cons b bs ih => intro db; exact ih (insertRows db t b)

theorem countRows_insertRows (t : String) (b : List Row) :
    ∀ db : Db, countRowsInTable (insertRows db t b) t
      = countRowsInTable db t + b.length := by
  intro db
  induction db with
  | nil => simp [insertRows, countRowsInTable]
  | cons e rest ih =>
    obtain ⟨n, tb⟩ := e
    by_cases hnt : n == t
    · simp [insertRows, countRowsInTable, hnt, List.find?]
    · simp only [insertRows, if_neg hnt]
      simp [countRowsInTable, List.find?, hnt] at ih ⊢
      exact ih

theorem countRows_foldl_insertRows (t : String) :
    ∀ (bs : List (List Row)) (db : Db),
      countRowsInTable (bs.foldl (fun d b => insertRows d t b) db) t
        = countRowsInTable db t + (bs.map List.length).sum := by
  intro bs
  induction bs with
  | nil => intro db; simp
  | cons b bs ih =>
    intro db
    rw [List.foldl_cons, ih (insertRows db t b), countRows_insertRows t b db]
    simp
    omega

theorem batchLoop_join (batchSize : Nat) :
    ∀ (rows : List Row) (buf : List Row),
      (batchLoop batchSize rows buf).flatten = buf ++ rows := by
  intro rows
  induction rows with
  | nil =>
    intro buf
    by_cases h : buf.length != 0
    · simp [batchLoop, h]
    · simp only [batchLoop, if_neg h]
      simp at h
      simp [h]
  | cons r rs ih =>
    intro buf
    simp only [batchLoop]
    split
    · rw [List.flatten_cons, ih]
      rw [← List.append_assoc, List.take_append_drop]
      simp
    · rw [ih]
      simp

theorem batches_total (batchSize : Nat) (rows : List Row) :
    ((batches batchSize rows).map List.length).sum = rows.length := by
  rw [← List.length_flatten, batches, batchLoop_join]
  simp

theorem txResolve_settled (u : TxLoadState)
    (h : u.resolved = true ∨ u.rejected = true) : txResolve u = u := by
  unfold txResolve
  rcases h with h | h <;> simp [h]

theorem txResolve_unsettled (u : TxLoadState) (h1 : u.resolved = false)
    (h2 : u.rejected = false) : txResolve u = { u with resolved := true } := by
  unfold txResolve
  simp [h1, h2]

theorem txReject_settled (u : TxLoadState)
    (h : u.resolved = true ∨ u.rejected = true) : txReject u = u := by
  unfold txReject
  rcases h with h | h <;> simp [h]

theorem txReject_unsettled (u : TxLoadState) (h1 : u.resolved = false)
    (h2 : u.rejected = false) : txReject u = { u with rejected := true } := by
  unfold txReject
  simp [h1, h2]

theorem txStep_pause_inv (B : Nat) (outcomes : Nat → Bool)
    (rows0 : List Row) (s : TxLoadState) (hs : TxInv rows0 s)
    (e : TxEvent) : TxInv rows0 (txStep true B outcomes s e) := by
  unfold TxInv at hs ⊢
  obtain ⟨h1, h2, h3, h4, h5, h6⟩ := hs
  cases e with
  | data =>
    simp only [txStep]
    split
    · exact ⟨h1, h2, h3, h4, h5, h6⟩
    · rename_i hpe
      simp only [Bool.or_eq_true, not_or, Bool.not_eq_true] at hpe
      obtain ⟨hpf, hef⟩ := hpe
      have hinfl : s.inflight = [] := by
        cases hic : s.inflight with
        | nil => rfl
        | cons ins rest =>
          have hm : ins ∈ s.inflight := by
            rw [hic]; exact List.mem_cons_self _ _
          cases hf : ins.isFinal with
          | false =>
            have := h2 ins hm hf
            simp [hpf] at this
          | true =>
            have := h3 ins hm hf
            simp [hef] at this
      split
      · exact ⟨h1, h2, h3, h4, h5, h6⟩
      · rename_i r rest hpend
        split
        · rename_i hge
          refine ⟨?_, ?_, ?_, ?_, ?_, ?_⟩
          · rw [hinfl]; simp
          · intro ins hmem hfin
            rfl
          · intro ins hmem hfin
            rw [hinfl] at hmem
            simp at hmem
            rw [hmem] at hfin
            simp at hfin
          · intro hend
            rw [hef] at hend
            simp at hend
          · intro hres
            have := (h5 hres).1
            rw [hpend] at this
            simp at this
          · intro hrej
            have h6o := h6 hrej
            rw [hinfl, hpend] at h6o
            simp only [List.map_nil, List.flatten_nil, List.nil_append,
              List.append_nil] at h6o
            simp only [List.map_append, List.map_cons, List.map_nil,
              List.flatten_append, List.flatten_cons, List.flatten_nil,
              List.append_nil]
            rw [hinfl]
            simp only [List.map_nil, List.flatten_nil, List.nil_append]
            simp only [List.append_assoc] at h6o ⊢
            rw [← List.append_assoc (List.take B (s.buffer ++ [r]))
              (List.drop B (s.buffer ++ [r])) rest, List.take_append_drop]
            simpa using h6o
        · rename_i hlt
          refine ⟨h1, h2, h3, ?_, ?_, ?_⟩
          · intro hend
            rw [hef] at hend
            simp at hend
          · intro hres
            have := (h5 hres).1
            rw [hpend] at this
            simp at this
          · intro hrej
            have h6o := h6 hrej
            rw [hpend] at h6o
            rw [← h6o]
            simp
  | endOfFile =>
    simp only [txStep]
    split
    · exact ⟨h1, h2, h3, h4, h5, h6⟩
    · rename_i hpe
      simp only [Bool.or_eq_true, not_or, Bool.not_eq_true] at hpe
      obtain ⟨hpf, hef⟩ := hpe
      have hinfl : s.inflight = [] := by
        cases hic : s.inflight with
        | nil => rfl
        | cons ins rest =>
          have hm : ins ∈ s.inflight := by
            rw [hic]; exact List.mem_cons_self _ _
          cases hf : ins.isFinal with
          | false =>
            have := h2 ins hm hf
            simp [hpf] at this
          | true =>
            have := h3 ins hm hf
            simp [hef] at this
      split
      · exact ⟨h1, h2, h3, h4, h5, h6⟩
      · rename_i hpend
        split
        · rename_i hbne
          have hresf : s.resolved = false := by
            cases hrc : s.resolved with
            | false => rfl
            | true =>
              have := (h5 hrc).2.1
              rw [this] at hbne
              simp at hbne
          refine ⟨?_, ?_, ?_, ?_, ?_, ?_⟩
          · rw [hinfl]; simp
          · intro ins hmem hfin
            rw [hinfl] at hmem
            simp at hmem
            rw [hmem] at hfin
            simp at hfin
          · intro ins hmem hfin
            rfl
          · intro hend
            exact ⟨hpend, rfl⟩
          · intro hres
            rw [hresf] at hres
            simp at hres
          · intro hrej
            have h6o := h6 hrej
            rw [hinfl, hpend] at h6o
            simp only [List.map_nil, List.flatten_nil, List.nil_append,
              List.append_nil] at h6o
            rw [hinfl]
            simp [hpend, h6o]
        · rename_i hbe
          simp only [bne_iff_ne, ne_eq, not_not] at hbe
          have hbnil : s.buffer = [] := List.length_eq_zero.mp hbe
          unfold txResolve
          split
          · exact ⟨h1, h2, fun ins hm hf => rfl, fun _ => ⟨hpend, hbnil⟩,
              fun hres => ⟨hpend, hbnil, by
                rcases h5 hres with ⟨_, _, hi⟩; exact hi⟩, h6⟩
          · exact ⟨h1, h2, fun i hm hf => rfl, fun _ => ⟨hpend, hbnil⟩,
              fun _ => ⟨hpend, hbnil, hinfl⟩, h6⟩
  | settle =>
    simp only [txStep]
    split
    · exact ⟨h1, h2, h3, h4, h5, h6⟩
    · rename_i ins rest hic
      have hresf : s.resolved = false := by
        cases hrc : s.resolved with
        | false => rfl
        | true =>
          have := (h5 hrc).2.2
          rw [hic] at this
          simp at this
      have hrest : rest = [] := by
        rw [hic] at h1
        simp at h1
        exact h1
      subst hrest
      have hmem : ins ∈ s.inflight := by
        rw [hic]; exact List.mem_cons_self _ _
      by_cases hout : outcomes ins.idx = true
      · rw [if_pos hout]
        cases hfc : ins.isFinal with
        | true =>
          rw [if_pos (rfl : (true : Bool) = true)]
          have hend : s.ended = true := h3 ins hmem hfc
          obtain ⟨hpend, hbuf⟩ := h4 hend
          cases hrejc : s.rejected with
          | true =>
            rw [txResolve_settled _ (Or.inr rfl)]
            refine ⟨by simp, ?_, ?_, h4, ?_, ?_⟩
            · intro i hm hf
              simp at hm
            · intro i hm hf
              simp at hm
            · intro hres
              exact absurd hres (by simp [hresf])
            · intro hrej
              exact absurd hrej (by simp)
          | false =>
            rw [txResolve_unsettled
              { s with inflight := [], applied := s.applied ++ [ins.payload],
                       rejected := false } hresf rfl]
            refine ⟨by simp, ?_, ?_, h4, ?_, ?_⟩
            · intro i hm hf
              simp at hm
            · intro i hm hf
              simp at hm
            · intro hres
              exact ⟨hpend, hbuf, rfl⟩
            · intro hrej
              have h6o := h6 hrejc
              rw [hic] at h6o
              simp [hpend, hbuf, List.flatten_append] at h6o ⊢
              exact h6o
        | false =>
          rw [if_neg (by simp : ¬(false : Bool) = true), if_pos trivial]
          refine ⟨by simp, ?_, ?_, h4, ?_, ?_⟩
          · intro i hm hf
            simp at hm
          · intro i hm hf
            simp at hm
          · intro hres
            exact absurd hres (by simp [hresf])
          · intro hrej
            have h6o := h6 hrej
            rw [hic] at h6o
            simp [List.flatten_append] at h6o ⊢
            exact h6o
      · rw [if_neg hout]
        cases hrejc : s.rejected with
        | true =>
          rw [txReject_settled _ (Or.inr rfl)]
          cases hfc : ins.isFinal with
          | true =>
            rw [if_pos (rfl : (true : Bool) = true),
              txResolve_settled _ (Or.inr rfl)]
            refine ⟨by simp, ?_, ?_, h4, ?_, ?_⟩
            · intro i hm hf
              simp at hm
            · intro i hm hf
              simp at hm
            · intro hres
              exact absurd hres (by simp [hresf])
            · intro hrej
              exact absurd hrej (by simp)
          | false =>
            rw [if_neg (by simp : ¬(false : Bool) = true), if_pos trivial]
            refine ⟨by simp, ?_, ?_, h4, ?_, ?_⟩
            · intro i hm hf
              simp at hm
            · intro i hm hf
              simp at hm
            · intro hres
              exact absurd hres (by simp [hresf])
            · intro hrej
              exact absurd hrej (by simp)
        | false =>
          rw [txReject_unsettled
            { s with inflight := [], rejected := false } hresf rfl]
          cases hfc : ins.isFinal with
          | true =>
            rw [if_pos (rfl : (true : Bool) = true),
              txResolve_settled _ (Or.inr rfl)]
            refine ⟨by simp, ?_, ?_, h4, ?_, ?_⟩
            · intro i hm hf
              simp at hm
            · intro i hm hf
              simp at hm
            · intro hres
              exact absurd hres (by simp [hresf])
            · intro hrej
              simp at hrej
          | false =>
            rw [if_neg (by simp : ¬(false : Bool) = true), if_pos trivial]
            refine ⟨by simp, ?_, ?_, h4, ?_, ?_⟩
            · intro i hm hf
              simp at hm
            · intro i hm hf
              simp at hm
            · intro hres
              exact absurd hres (by simp [hresf])
            · intro hrej
              simp at hrej

theorem runTx_pause_inv (B : Nat) (outcomes : Nat → Bool)
    (rows0 : List Row) (es : List TxEvent) :
    ∀ s : TxLoadState, TxInv rows0 s →
      TxInv rows0 (runTx true B outcomes s es) := by
  induction es with
  | nil => intro s hs; exact hs
  | cons e es ih =>
    intro s hs
    exact ih (txStep true B outcomes s e)
      (txStep_pause_inv B outcomes rows0 s hs e)

theorem initTx_inv (rows : List Row) : TxInv rows (initTx rows) := by
  unfold TxInv initTx
  refine ⟨by simp, ?_, ?_, ?_, ?_, ?_⟩
  · intro ins hmem hfin
    simp at hmem
  · intro ins hmem hfin
    simp at hmem
  · intro hend
    simp at hend
  · intro hres
    simp at hres
  · intro hrej
    simp

/-- C2 counterexample: the part_000 `processCSV` is not all-or-nothing.
With 20 source rows and batch size 10, the unpaused stream delivers all
twenty rows in a burst, issuing two batch inserts that are still pending
when `end` fires with an empty remainder, so `resolve()` settles the
promise first; the first insert then succeeds and the second FAILS — its
`.catch(reject)` is a no-op on the settled promise — and knex COMMITs
the transaction with only the first batch applied: the table ends with
10 rows out of a 20-row source, a strict partial prefix (neither 0 nor
20). -/
theorem part000_partial_commit :
    countRowsInTable
        (txFinal [] "customers"
          (runTx false 10 (fun i => i == 0)
            (initTx (List.replicate 20 [("a", "x")]))
            (List.replicate 20 TxEvent.data
              ++ [TxEvent.endOfFile, TxEvent.settle, TxEvent.settle])))
        "customers" = 10
    ∧ countRowsInCSV (List.replicate 20 [("a", "x")]) = 20
    ∧ countRowsInTable ([] : Db) "customers" = 0 := by
  decide

/-- C2 amended: in the challenge-1 `processCSV` the pause/resume
protocol makes every schedule atomic — `end` can fire only after all
mid-file inserts have settled, so a failing insert always rejects the
promise before `resolve()` runs: for every batch size, failure oracle
and event schedule, the destination table's row count after finalization
either equals its count before the run (rollback, or an unfinished
transaction) or exceeds it by exactly the source file's row count (a
fully successful commit) — never a strict partial prefix.  The part_000
variant, lacking the pause, admits the partial-commit race of the
counterexample. -/
theorem processCSV_pause_atomic (B : Nat) (outcomes : Nat → Bool)
    (rows : List Row) (es : List TxEvent) (db : Db) (t : String) :
    countRowsInTable (txFinal db t (runTx true B outcomes (initTx rows) es)) t
      = countRowsInTable db t
    ∨ countRowsInTable (txFinal db t (runTx true B outcomes (initTx rows) es)) t
      = countRowsInTable db t + rows.length := by
  obtain ⟨h1, h2, h3, h4, h5, h6⟩ :=
    runTx_pause_inv B outcomes rows es (initTx rows) (initTx_inv rows)
  unfold txFinal
  by_cases hrej : (runTx true B outcomes (initTx rows) es).rejected = true
  · rw [if_pos hrej]
    left
    rfl
  · have hrejf : (runTx true B outcomes (initTx rows) es).rejected = false := by
      cases hrc : (runTx true B outcomes (initTx rows) es).rejected with
      | false => rfl
      | true => exact absurd hrc hrej
    rw [if_neg hrej]
    by_cases hres : (runTx true B outcomes (initTx rows) es).resolved = true
    · rw [if_pos hres]
      right
      rw [countRows_foldl_insertRows]
      have hc := h6 hrejf
      obtain ⟨hp, hb, hi⟩ := h5 hres
      rw [hp, hb, hi] at hc
      simp only [List.map_nil, List.flatten_nil, List.append_nil] at hc
      rw [← List.length_flatten, hc]
    · rw [if_neg hres]
      left
      rfl

theorem batchLoop_sizes (batchSize : Nat) (hB : 0 < batchSize) :
    ∀ (rows : List Row) (buf : List Row), buf.length < batchSize →
      (batchLoop batchSize rows buf).map List.length
        = List.replicate ((buf.length + rows.length) / batchSize) batchSize
          ++ (if (buf.length + rows.length) % batchSize = 0 then []
              else [(buf.length + rows.length) % batchSize]) := by
  intro rows
  induction rows with
  | nil =>
    intro buf hbuf
    have hdiv : buf.length / batchSize = 0 := Nat.div_eq_of_lt hbuf
    have hmod : buf.length % batchSize = buf.length := Nat.mod_eq_of_lt hbuf
    by_cases h : buf.length != 0
    · have hne : buf.length ≠ 0 := by simpa using h
      simp [batchLoop, h, hdiv, hmod, hne]
    · have he : buf.length = 0 := by simpa using h
      simp only [batchLoop, if_neg h]
      simp [he, hdiv, hmod]
  | cons r rs ih =>
    intro buf hbuf
    simp only [batchLoop]
    split
    case isTrue hge =>
      have hl : buf.length + 1 = batchSize := by
        simp only [List.length_append, List.length_cons, List.length_nil] at hge
        omega
      have hlen : (buf ++ [r]).length = batchSize := by simp; omega
      have htake : (buf ++ [r]).take batchSize = buf ++ [r] := by
        rw [← hlen]; exact List.take_length _
      have hdrop : (buf ++ [r]).drop batchSize = [] := by
        rw [← hlen]; exact List.drop_length _
      rw [htake, hdrop, List.map_cons, hlen, ih [] (by simpa using hB)]
      simp only [List.length_nil, Nat.zero_add, List.length_cons]
      have hn : buf.length + (rs.length + 1) = rs.length + batchSize := by omega
      rw [hn, Nat.add_div_right _ hB, Nat.add_mod_right, List.replicate_succ]
      simp
    case isFalse hlt =>
      have hlt2 : (buf ++ [r]).length < batchSize := by omega
      rw [ih (buf ++ [r]) hlt2]
      simp only [List.length_append, List.length_cons, List.length_nil]
      have hn : buf.length + 1 + rs.length = buf.length + (rs.length + 1) := by omega
      rw [hn]

theorem ceil_div_formula (n B : Nat) (hB : 0 < B) :
    n / B + (if n % B = 0 then 0 else 1) = (n + B - 1) / B := by
  have hdm := Nat.div_add_mod n B
  by_cases h : n % B = 0
  · have h1 : n + B - 1 = B * (n / B) + (B - 1) := by omega
    rw [h1, Nat.mul_add_div hB,
      Nat.div_eq_of_lt (show B - 1 < B by omega)]
    simp [h]
  · have hlt : n % B < B := Nat.mod_lt _ hB
    have hmul : B * (n / B + 1) = B * (n / B) + B := by ring
    have h1 : n + B - 1 = B * (n / B + 1) + (n % B - 1) := by omega
    rw [h1, Nat.mul_add_div hB,
      Nat.div_eq_of_lt (show n % B - 1 < B by omega)]
    simp [h]

/-- C8: for a source of `n` data rows and batch size `B`, the loader
issues exactly ⌈n / B⌉ batch inserts whose sizes are `B` repeated
`n / B` times followed by a final partial batch of `n mod B` rows exactly
when `B` does not divide `n`; and a fully successful load commits exactly
`n` rows (the code instantiates `B = 10`). -/
theorem loader_batching (B : Nat) (hB : 0 < B) (rows : List Row) :
    (batches B rows).length = (rows.length + B - 1) / B
    ∧ (batches B rows).map List.length
        = List.replicate (rows.length / B) B
          ++ (if rows.length % B = 0 then [] else [rows.length % B])
    ∧ ∀ (db : Db) (t : String),
        countRowsInTable (processCSV db rows t none) t
          = countRowsInTable db t + rows.length := by
  have hsz := batchLoop_sizes B hB rows [] (by simpa using hB)
  simp only [List.length_nil, Nat.zero_add] at hsz
  refine ⟨?_, hsz, ?_⟩
  · have hlen : (batches B rows).length
        = ((batches B rows).map List.length).length := by simp
    rw [hlen, batches, hsz, ← ceil_div_formula rows.length B hB]
    by_cases h : rows.length % B = 0 <;> simp [h]
  · intro db t
    unfold processCSV
    rw [applyBatches_none t (batches 10 rows) db,
      countRows_foldl_insertRows t (batches 10 rows) db, batches_total]

/-- C8 witness: with batch size 10 and a 25-row source the loader issues
3 batches of sizes 10, 10, 5, and a successful load commits 25 rows. -/
theorem loader_batching_witness :
    (batches 10 (List.replicate 25 [("a", "x")])).length = 3
    ∧ (batches 10 (List.replicate 25 [("a", "x")])).map List.length = [10, 10, 5]
    ∧ countRowsInTable
        (processCSV [] (List.replicate 25 [("a", "x")]) "organizations" none)
        "organizations" = 25 :=
  ⟨((loader_batching 10 (by decide) (List.replicate 25 [("a", "x")])).1).trans
      (by decide),
   ((loader_batching 10 (by decide) (List.replicate 25 [("a", "x")])).2.1).trans
      (by decide),
   (((loader_batching 10 (by decide) (List.replicate 25 [("a", "x")])).2.2
      [] "organizations")).trans (by decide)⟩

theorem tableExists_append (db : Db) (n : String) (tb : Table) (m : String) :
    tableExists (db ++ [(n, tb)]) m = (tableExists db m || (n == m)) := by
  simp [tableExists, List.any_append]

theorem setupDatabase_ok (db : Db) (tys : List (String × InferredType))
    (t : String) (h : tableExists db t = false) :
    setupDatabase db tys t = Except.ok (db ++ [(t, ⟨tys, []⟩)]) := by
  unfold setupDatabase
  rw [h]
  simp

theorem setupDatabase_exists (db : Db) (tys : List (String × InferredType))
    (t : String) (h : tableExists db t = true) :
    setupDatabase db tys t
      = Except.error (JsError.tableAlreadyExists t) := by
  unfold setupDatabase
  rw [h]
  simp

/-- C4 counterexample.  First, a run whose very first batch insert for
the customers dataset fails is NOT aborted and re-raised — `processCSV`
catches and logs the load error after the rollback, the organizations
load still runs, and `processDataDump` returns success with the
customers table left empty.  Second, an empty customers file and an
empty organizations file make the run fail with the IDENTICAL uncaught
`TypeError` (thrown in the stream's `end` listener, never rejecting the
inference promise and never reaching the entry point's catch, hence not
wrapped in the generic rethrow): the surfaced error is the same for two
different failing datasets, so it identifies neither the dataset nor the
stage. -/
theorem processDataDump_swallows_load_failure :
    processDataDump [] ⟨[[("a", "1")]], [[("a", "2")]]⟩ (some 0) none
      = Except.ok
          [("customers", ⟨[("a", InferredType.int)], []⟩),
           ("organizations", ⟨[("a", InferredType.int)], [[("a", "2")]]⟩)]
    ∧ processDataDump [] ⟨[], [[("a", "2")]]⟩ none none
      = Except.error (JsError.typeError
          "Cannot convert undefined or null to object")
    ∧ processDataDump [] ⟨[[("a", "1")]], []⟩ none none
      = Except.error (JsError.typeError
          "Cannot convert undefined or null to object") :=
  ⟨rfl, rfl, rfl⟩

/-- C4 amended: an unrecoverable error in the guard-check or
table-provisioning stage aborts the run and is re-raised to the caller
wrapped in the entry point's generic message around the inner error; an
empty-source failure in the type-inference stage aborts the run as an
uncaught `TypeError` that never passes through the entry point's catch
(surfaced unwrapped, identical for either dataset); and a failure
during batched insertion never aborts the run — whenever the pre-load
stages succeed, `processDataDump` returns success regardless of the
insert-failure oracles, because `processCSV` swallows the rolled-back
load error. -/
theorem processDataDump_error_surfacing (db : Db) (env : Env)
    (failC failO : Option Nat) :
    (∀ e : JsError, env.customersCsv ≠ [] → env.organizationsCsv ≠ [] →
        checkAndVerifyTables db env = Except.error e →
        processDataDump db env failC failO
          = Except.error (JsError.wrapped e))
    ∧ (tableExists db "customers" = true →
        tableExists db "organizations" = false →
        env.customersCsv ≠ [] → env.organizationsCsv ≠ [] →
        processDataDump db env failC failO
          = Except.error (JsError.wrapped
              (JsError.tableAlreadyExists "customers")))
    ∧ (env.customersCsv = [] →
        processDataDump db env failC failO
          = Except.error (JsError.typeError
              "Cannot convert undefined or null to object"))
    ∧ (tableExists db "customers" = false →
        tableExists db "organizations" = false →
        env.customersCsv ≠ [] → env.organizationsCsv ≠ [] →
        ∃ db2, processDataDump db env failC failO = Except.ok db2) := by
  obtain ⟨cs, os⟩ := env
  refine ⟨?_, ?_, ?_, ?_⟩
  · intro e hcs hos hguard
    cases cs with
    | nil => exact absurd rfl hcs
    | cons c0 cs2 =>
      cases os with
      | nil => exact absurd rfl hos
      | cons o0 os2 =>
        unfold processDataDump pipelineAfterInference
        dsimp only
        rw [inferColumnTypes_first "./tmp/extracted/dump/customers.csv"
            c0 cs2 10 (by decide),
          inferColumnTypes_first "./tmp/extracted/dump/organizations.csv"
            o0 os2 10 (by decide), hguard]
  · intro hc1 hc2 hcs hos
    cases cs with
    | nil => exact absurd rfl hcs
    | cons c0 cs2 =>
      cases os with
      | nil => exact absurd rfl hos
      | cons o0 os2 =>
        have hguard : checkAndVerifyTables db ⟨c0 :: cs2, o0 :: os2⟩
            = Except.ok false := by
          simp [checkAndVerifyTables, hc1, hc2]
        unfold processDataDump pipelineAfterInference
        dsimp only
        rw [inferColumnTypes_first "./tmp/extracted/dump/customers.csv"
            c0 cs2 10 (by decide),
          inferColumnTypes_first "./tmp/extracted/dump/organizations.csv"
            o0 os2 10 (by decide), hguard]
        dsimp only
        rw [setupDatabase_exists db _ "customers" hc1]
  · intro hcs
    dsimp only at hcs
    subst hcs
    rfl
  · intro h1 h2 hcs hos
    cases cs with
    | nil => exact absurd rfl hcs
    | cons c0 cs2 =>
      cases os with
      | nil => exact absurd rfl hos
      | cons o0 os2 =>
        have hguard : checkAndVerifyTables db ⟨c0 :: cs2, o0 :: os2⟩
            = Except.ok false := by
          simp [checkAndVerifyTables, h1]
        unfold processDataDump pipelineAfterInference
        dsimp only
        rw [inferColumnTypes_first "./tmp/extracted/dump/customers.csv"
            c0 cs2 10 (by decide),
          inferColumnTypes_first "./tmp/extracted/dump/organizations.csv"
            o0 os2 10 (by decide), hguard]
        dsimp only
        rw [setupDatabase_ok db _ "customers" h1]
        dsimp only
        have h2b : tableExists (db ++ [("customers",
            (⟨(c0.map Prod.fst).map (fun h =>
                (h, inferType ((rowGet c0 h).getD "undefined"))), []⟩ : Table))])
            "organizations" = false := by
          rw [tableExists_append]
          simp [h2]
        rw [setupDatabase_ok _ _ "organizations" h2b]
        exact ⟨_, rfl⟩

/-- C4 witness: the four amended conclusions at concrete inputs — a
guard error re-raised wrapped on an already-loaded database, a DDL error
re-raised wrapped when only the customers table pre-exists, the
unwrapped TypeError on an empty customers file, and a successful run
despite a failing first batch insert. -/
theorem processDataDump_error_surfacing_witness :
    processDataDump
        [("customers", ⟨[("a", InferredType.int)], [[("a", "1")]]⟩),
         ("organizations", ⟨[("a", InferredType.int)], [[("a", "2")]]⟩)]
        ⟨[[("a", "1")]], [[("a", "2")]]⟩ none none
      = Except.error (JsError.wrapped (JsError.assertionError
          "customer count in db != customer count in csv"))
    ∧ processDataDump [("customers", ⟨[("a", InferredType.int)], []⟩)]
        ⟨[[("a", "1")]], [[("a", "2")]]⟩ none none
      = Except.error (JsError.wrapped
          (JsError.tableAlreadyExists "customers"))
    ∧ processDataDump [] ⟨[], [[("a", "2")]]⟩ none none
      = Except.error (JsError.typeError
          "Cannot convert undefined or null to object")
    ∧ ∃ db2, processDataDump [] ⟨[[("a", "1")]], [[("a", "2")]]⟩
        (some 0) none = Except.ok db2 :=
  ⟨(processDataDump_error_surfacing
      [("customers", ⟨[("a", InferredType.int)], [[("a", "1")]]⟩),
       ("organizations", ⟨[("a", InferredType.int)], [[("a", "2")]]⟩)]
      ⟨[[("a", "1")]], [[("a", "2")]]⟩ none none).1
      (JsError.assertionError
        "customer count in db != customer count in csv")
      (by decide) (by decide) (by rfl),
   (processDataDump_error_surfacing
      [("customers", ⟨[("a", InferredType.int)], []⟩)]
      ⟨[[("a", "1")]], [[("a", "2")]]⟩ none none).2.1
      rfl rfl (by decide) (by decide),
   (processDataDump_error_surfacing [] ⟨[], [[("a", "2")]]⟩
      none none).2.2.1 rfl,
   (processDataDump_error_surfacing [] ⟨[[("a", "1")]], [[("a", "2")]]⟩
      (some 0) none).2.2.2 rfl rfl (by decide) (by decide)⟩

theorem stepPause_inv (B : Nat) (hB : 0 < B) (s : LoadState)
    (hs : LoadInv B s) (e : StreamEvent) : LoadInv B (stepPause B s e) := by
  unfold LoadInv at hs ⊢
  obtain ⟨hbuf, hlen, hfl⟩ := hs
  cases e with
  | data =>
    simp only [stepPause]
    split
    · exact ⟨hbuf, hlen, hfl⟩
    · rename_i hpe
      split
      · exact ⟨hbuf, hlen, hfl⟩
      · rename_i r rest hp
        have hinfl : s.inflight = [] := by
          by_contra hne
          rcases hfl hne with h | h
          · simp [h] at hpe
          · simp [h] at hpe
        split
        · refine ⟨?_, ?_, fun _ => Or.inl rfl⟩
          · simp only [List.length_drop, List.length_append,
              List.length_cons, List.length_nil]
            omega
          · simp [hinfl]
        · rename_i hlt
          refine ⟨?_, hlen, fun hne => hfl hne⟩
          simp only [List.length_append, List.length_cons, List.length_nil] at hlt ⊢
          omega
  | insertDone =>
    simp only [stepPause]
    split
    · exact ⟨hbuf, hlen, hfl⟩
    · rename_i b bs hin
      have hbs : bs = [] := by
        rw [hin] at hlen
        simp at hlen
        exact hlen
      subst hbs
      exact ⟨hbuf, by simp, fun hne => absurd rfl hne⟩
  | endOfFile =>
    simp only [stepPause]
    split
    · exact ⟨hbuf, hlen, hfl⟩
    · rename_i hpe
      split
      · exact ⟨hbuf, hlen, hfl⟩
      · have hinfl : s.inflight = [] := by
          by_contra hne
          rcases hfl hne with h | h
          · simp [h] at hpe
          · simp [h] at hpe
        split
        · exact ⟨by simpa using hB, by simp [hinfl], fun _ => Or.inr rfl⟩
        · exact ⟨hbuf, hlen, fun _ => Or.inr rfl⟩

theorem runPause_inv (B : Nat) (hB : 0 < B) (es : List StreamEvent) :
    ∀ s : LoadState, LoadInv B s → LoadInv B (runPause B s es) := by
  induction es with
  | nil => intro s hs; exact hs
  | cons e es ih =>
    intro s hs
    exact ih (stepPause B s e) (stepPause_inv B hB s hs e)

theorem initLoad_inv (B : Nat) (hB : 0 < B) (rows : List Row) :
    LoadInv B (initLoad rows) := by
  unfold LoadInv initLoad
  exact ⟨by simpa using hB, by simp, fun hne => absurd rfl hne⟩

/-- C9 amended: in the challenge-1 version of `processCSV` (the one with
`stream.pause()` / `stream.resume()`), every reachable state of the load
keeps the buffer at no more than the batch size, and while a batch insert
is in flight the stream is paused (or already ended), so a `data` event
cannot change the state — no new row is parsed while an insert is
pending.  (The part_000 version lacks the pause, and does parse rows
during an in-flight insert, though its buffer bound still holds.) -/
theorem backpressure_bounded_buffer (B : Nat) (hB : 0 < B) (rows : List Row)
    (es : List StreamEvent) :
    (runPause B (initLoad rows) es).buffer.length ≤ B
    ∧ ((runPause B (initLoad rows) es).inflight ≠ [] →
        stepPause B (runPause B (initLoad rows) es) StreamEvent.data
          = runPause B (initLoad rows) es) := by
  have hinv := runPause_inv B hB es (initLoad rows) (initLoad_inv B hB rows)
  unfold LoadInv at hinv
  obtain ⟨h1, _, h3⟩ := hinv
  refine ⟨Nat.le_of_lt h1, ?_⟩
  intro hne
  rcases h3 hne with hp | he
  · simp [stepPause, hp]
  · simp [stepPause, he]

/-- C9 witness: a concrete run of the challenge-1 machine at batch size
90 (the source's constant) satisfies both conclusions. -/
theorem backpressure_bounded_buffer_witness :
    0 < 90
    ∧ ((runPause 90 (initLoad (List.replicate 3 [("a", "x")]))
          [StreamEvent.data, StreamEvent.data, StreamEvent.data]).buffer.length ≤ 90
      ∧ ((runPause 90 (initLoad (List.replicate 3 [("a", "x")]))
            [StreamEvent.data, StreamEvent.data, StreamEvent.data]).inflight ≠ [] →
          stepPause 90
              (runPause 90 (initLoad (List.replicate 3 [("a", "x")]))
                [StreamEvent.data, StreamEvent.data, StreamEvent.data])
              StreamEvent.data
            = runPause 90 (initLoad (List.replicate 3 [("a", "x")]))
                [StreamEvent.data, StreamEvent.data, StreamEvent.data])) :=
  ⟨by decide,
   backpressure_bounded_buffer 90 (by decide) (List.replicate 3 [("a", "x")])
     [StreamEvent.data, StreamEvent.data, StreamEvent.data]⟩

/-- C9 counterexample: in the part_000 version of `processCSV` there is
no `stream.pause()`: after ten `data` events with batch size 10 a batch
insert is in flight, yet the pending eleventh row is still parsed by a
further `data` event — a new row is parsed while an insert is pending,
contradicting the claim for this load path. -/
theorem part000_parses_row_while_insert_inflight :
    (runNoPause 10 (initLoad (List.replicate 11 [("a", "x")]))
        (List.replicate 10 StreamEvent.data)).inflight ≠ []
    ∧ (runNoPause 10 (initLoad (List.replicate 11 [("a", "x")]))
        (List.replicate 10 StreamEvent.data)).pending.length = 1
    ∧ (stepNoPause 10
        (runNoPause 10 (initLoad (List.replicate 11 [("a", "x")]))
          (List.replicate 10 StreamEvent.data))
        StreamEvent.data).pending.length = 0 := by decide

end Ingest
